import Mathlib

/-!
# Verification of the Windows VaultAdapter of react-native-sensitive-info

Shallow embedding of `src/windows/code/RNSensitiveInfoCPP.cpp`.

The adapter forwards four key/value operations (getItem, setItem, deleteItem,
getAllItems) and two capability probes to the Windows `PasswordVault`.

Modelling choices:

* The `PasswordVault` itself is an external, vendor-owned collaborator (the
  spec declares it out of scope).  It is modelled from the spec's data model:
  a collection of credential records, at most one per (resource, userName)
  pair, with lookup / upsert / remove / enumerate-by-resource operations.
  Concretely the vault state is a list of records; `vaultAdd` replaces an
  existing record for the same (resource, userName) in place, else appends.
* `winrt::Microsoft::ReactNative::JSValueObject` is a string-keyed map of
  `JSValue`s; `JSValue::AsString()` is modelled after its implementation in
  Microsoft.ReactNative.Cxx: the string itself for a string value,
  "true"/"false" for booleans, the decimal text for 64-bit integers, and the
  empty string for null / arrays / objects.  (The floating-point `Double`
  case is not modelled; no claim here depends on it.)
* Exceptions thrown by the vault are modelled by an oracle `fault : Nat → Bool`
  giving, for each vault call of one invocation (numbered from 0 in call
  order), whether that call raises.  A raising call leaves the vault state
  unchanged.  In `getAllItems`, a `Retrieve` that finds no record is also a
  raise: the C++ calls `data.Password()` with no null check, and a method
  call on a null WinRT object throws, landing in the same `catch (...)`.
* Each operation returns the list of promise completions it performed (the
  C++ calls `promise.Resolve` / `promise.Reject`), the resulting vault state,
  and the trace of vault calls it issued (attempted calls included).
-/

/-- One stored credential record of the vault: the collection name is the
vault's `resource`, the item key its `userName`, the value its password. -/
structure Credential where
  resource : String
  userName : String
  password : String
deriving DecidableEq, Repr

/-- Modelled from the spec: the vault state, a collection of credential
records (at most one per (resource, userName) in reachable states). -/
abbrev Vault : Type := List Credential

/-- `PasswordVault.Retrieve(resource, userName)`: the stored record, if any. -/
def vaultRetrieve (v : Vault) (res user : String) : Option Credential :=
  List.find? (fun c => c.resource == res && c.userName == user) v

/-- Modelled from the spec: `PasswordVault.Add` with platform upsert
semantics — replace the record with the same (resource, userName) if one
exists, else append the new record. -/
def vaultAdd : Vault → Credential → Vault
  | [], c => [c]
  | d :: rest, c =>
    if d.resource == c.resource && d.userName == c.userName then c :: rest
    else d :: vaultAdd rest c

/-- `PasswordVault.Remove(cred)`: drop the record(s) matching the
credential's (resource, userName). -/
def vaultRemove : Vault → Credential → Vault
  | [], _ => []
  | d :: rest, c =>
    if d.resource == c.resource && d.userName == c.userName then vaultRemove rest c
    else d :: vaultRemove rest c

/-- `PasswordVault.FindAllByResource(resource)`: all records of one
collection, in vault order. -/
def vaultFindAllByResource (v : Vault) (res : String) : List Credential :=
  List.filter (fun c => c.resource == res) v

/-- At most one record per (resource, userName) pair — the spec's invariant
on reachable vault states. -/
def vaultWellformed (v : Vault) : Prop :=
  List.Pairwise (fun c d => ¬(c.resource = d.resource ∧ c.userName = d.userName)) v

/-- A JSValue as marshalled over the React Native boundary.  The
floating-point `Double` case is left out of the model. -/
inductive JSValue where
  | null : JSValue
  | boolean : Bool → JSValue
  | int64 : Int → JSValue
  | string : String → JSValue
  | array : List JSValue → JSValue
  | object : List (String × JSValue) → JSValue

/-- `JSValue::AsString()` of Microsoft.ReactNative.Cxx: the string itself for
a string value, "true"/"false" for booleans, decimal text for Int64, and the
empty string otherwise. -/
def JSValue.asString : JSValue → String
  | JSValue.string s => s
  | JSValue.boolean b => if b then "true" else "false"
  | JSValue.int64 n => toString n
  | _ => ""

/-- `JSValueObject`: a string-keyed map of JSValues (the options bag). -/
abbrev JSValueObject : Type := List (String × JSValue)

/-- `std::map::find` on a `JSValueObject`: the value stored at `k`, if any. -/
def jsvoFind (o : JSValueObject) (k : String) : Option JSValue :=
  (List.find? (fun p => p.1 == k) o).map (fun p => p.2)

/-- `getSharedPreferences(options)`: the `AsString` of the
`sharedPreferencesName` field when present, else `"shared_preferences"`. -/
def getSharedPreferences (options : JSValueObject) : String :=
  match jsvoFind options "sharedPreferencesName" with
  | some jv => jv.asString
  | none => "shared_preferences"

/-- A completion performed on a `ReactPromise`. -/
inductive PromiseCompletion (α : Type) where
  | resolve : α → PromiseCompletion α
  | reject : String → PromiseCompletion α
deriving DecidableEq, Repr

/-- One call issued to the vault. -/
inductive VaultCall where
  | retrieve : String → String → VaultCall
  | add : Credential → VaultCall
  | remove : Credential → VaultCall
  | findAllByResource : String → VaultCall
deriving DecidableEq, Repr

/-- The fault oracle under which no vault call raises. -/
def noFault : Nat → Bool := fun _ => false

/-- `RNSensitiveInfo::getItem`: empty-key guard, then one vault `Retrieve`;
rejects "key not found" on a missing record, resolves the stored password
otherwise; any vault exception rejects "cannot access datastore". -/
def getItem (key : String) (options : JSValueObject) (v : Vault)
    (fault : Nat → Bool) :
    List (PromiseCompletion String) × Vault × List VaultCall :=
  if key = "" then ([PromiseCompletion.reject "key is empty"], v, [])
  else
    let name := getSharedPreferences options
    if fault 0 then
      ([PromiseCompletion.reject "cannot access datastore"], v,
        [VaultCall.retrieve name key])
    else
      match vaultRetrieve v name key with
      | none =>
        ([PromiseCompletion.reject "key not found"], v,
          [VaultCall.retrieve name key])
      | some data =>
        ([PromiseCompletion.resolve data.password], v,
          [VaultCall.retrieve name key])

/-- `RNSensitiveInfo::setItem`: empty-key guard, then one vault `Add` of the
new credential; resolves the value argument on success; any vault exception
rejects "cannot access datastore". -/
def setItem (key value : String) (options : JSValueObject) (v : Vault)
    (fault : Nat → Bool) :
    List (PromiseCompletion String) × Vault × List VaultCall :=
  if key = "" then ([PromiseCompletion.reject "key is empty"], v, [])
  else
    let name := getSharedPreferences options
    let creds : Credential := ⟨name, key, value⟩
    if fault 0 then
      ([PromiseCompletion.reject "cannot access datastore"], v,
        [VaultCall.add creds])
    else
      ([PromiseCompletion.resolve value], vaultAdd v creds,
        [VaultCall.add creds])

/-- `RNSensitiveInfo::deleteItem`: empty-key guard, vault `Retrieve`, then
`Remove` of the found record; rejects "key not found" on a missing record,
resolves the key on success; any vault exception rejects
"cannot access datastore". -/
def deleteItem (key : String) (options : JSValueObject) (v : Vault)
    (fault : Nat → Bool) :
    List (PromiseCompletion String) × Vault × List VaultCall :=
  if key = "" then ([PromiseCompletion.reject "key is empty"], v, [])
  else
    let name := getSharedPreferences options
    if fault 0 then
      ([PromiseCompletion.reject "cannot access datastore"], v,
        [VaultCall.retrieve name key])
    else
      match vaultRetrieve v name key with
      | none =>
        ([PromiseCompletion.reject "key not found"], v,
          [VaultCall.retrieve name key])
      | some data =>
        if fault 1 then
          ([PromiseCompletion.reject "cannot access datastore"], v,
            [VaultCall.retrieve name key, VaultCall.remove data])
        else
          ([PromiseCompletion.resolve key], vaultRemove v data,
            [VaultCall.retrieve name key, VaultCall.remove data])

/-- `returnValue[key] = value` on the result map being assembled by
`getAllItems`: replace the entry at `k` if present, else append. -/
def jsvoSet (m : List (String × String)) (k val : String) :
    List (String × String) :=
  if List.any m (fun p => p.1 == k) then
    List.map (fun p => if p.1 == k then (k, val) else p) m
  else m ++ [(k, val)]

/-- The enumeration/read loop of `getAllItems`: for each enumerated
credential, `Retrieve` its record and store its password under its userName
(`returnValue[userName] = password`, an upsert into the result map).
`none` means a vault exception was raised (a faulted call, or `Password()`
invoked on a null retrieval result). -/
def buildAllItems (v : Vault) (name : String) (fault : Nat → Bool) :
    List Credential → List (String × String) → Nat →
    Option (List (String × String)) × List VaultCall
  | [], acc, _ => (some acc, [])
  | c :: rest, acc, i =>
    if fault i then (none, [VaultCall.retrieve name c.userName])
    else
      match vaultRetrieve v name c.userName with
      | none => (none, [VaultCall.retrieve name c.userName])
      | some data =>
        let r := buildAllItems v name fault rest
          (jsvoSet acc c.userName data.password) (i + 1)
        (r.1, VaultCall.retrieve name c.userName :: r.2)

/-- `RNSensitiveInfo::getAllItems`: `FindAllByResource` on the resolved
collection, then the enumeration/read loop; resolves the assembled mapping,
or rejects "cannot access datastore" on any vault exception. -/
def getAllItems (options : JSValueObject) (v : Vault) (fault : Nat → Bool) :
    List (PromiseCompletion (List (String × String))) × Vault × List VaultCall :=
  let name := getSharedPreferences options
  if fault 0 then
    ([PromiseCompletion.reject "cannot access datastore"], v,
      [VaultCall.findAllByResource name])
  else
    let allKeys := vaultFindAllByResource v name
    match buildAllItems v name fault allKeys [] 1 with
    | (some m, tr) =>
      ([PromiseCompletion.resolve m], v, VaultCall.findAllByResource name :: tr)
    | (none, tr) =>
      ([PromiseCompletion.reject "cannot access datastore"], v,
        VaultCall.findAllByResource name :: tr)

/-- `RNSensitiveInfo::isSensorAvailable`: unconditionally resolves `false`. -/
def isSensorAvailable : List (PromiseCompletion Bool) :=
  [PromiseCompletion.resolve false]

/-- `RNSensitiveInfo::hasEnrolledFingerprints`: unconditionally resolves
`false`. -/
def hasEnrolledFingerprints : List (PromiseCompletion Bool) :=
  [PromiseCompletion.resolve false]

/-! ## Helper lemmas -/

/-- After an upsert of `c`, a retrieve for `c`'s (resource, userName) finds
exactly `c`. -/
theorem vaultRetrieve_vaultAdd_self (v : Vault) (c : Credential) :
    vaultRetrieve (vaultAdd v c) c.resource c.userName = some c := by
  induction v with
  | nil => simp [vaultAdd, vaultRetrieve]
  | cons d rest ih =>
    by_cases h : d.resource == c.resource && d.userName == c.userName
    · simp [vaultAdd, vaultRetrieve, h]
    · simp only [vaultAdd, h, if_neg]
      simp only [vaultRetrieve, List.find?] at ih ⊢
      simp [h, ih]

/-- After removing `c`, a retrieve for `c`'s (resource, userName) finds
nothing. -/
theorem vaultRetrieve_vaultRemove_self (v : Vault) (c : Credential) :
    vaultRetrieve (vaultRemove v c) c.resource c.userName = none := by
  induction v with
  | nil => rfl
  | cons d rest ih =>
    by_cases h : (d.resource == c.resource && d.userName == c.userName) = true
    · simpa [vaultRemove, h] using ih
    · simp only [Bool.not_eq_true] at h
      simp only [vaultRemove, h, Bool.false_eq_true, if_false]
      simpa [vaultRetrieve, List.find?_cons, h] using ih

/-! ## Claims -/

/-- C1: with an empty key, getItem, setItem and deleteItem reject with
exactly "key is empty", leave the vault untouched, and issue no vault call
at all — for every options structure, vault state and fault oracle. -/
theorem empty_key_rejects_without_vault_access
    (value : String) (options : JSValueObject) (v : Vault)
    (fault : Nat → Bool) :
    getItem "" options v fault
        = ([PromiseCompletion.reject "key is empty"], v, []) ∧
    setItem "" value options v fault
        = ([PromiseCompletion.reject "key is empty"], v, []) ∧
    deleteItem "" options v fault
        = ([PromiseCompletion.reject "key is empty"], v, []) := by
  refine ⟨?_, ?_, ?_⟩ <;> simp [getItem, setItem, deleteItem]

/-- C9: isSensorAvailable and hasEnrolledFingerprints perform exactly one
completion, resolving `false` — they never reject. -/
theorem sensor_probes_always_resolve_false :
    isSensorAvailable = [PromiseCompletion.resolve false] ∧
    hasEnrolledFingerprints = [PromiseCompletion.resolve false] :=
  ⟨rfl, rfl⟩

/-- C8: a successful setItem resolves with exactly the value argument it was
given, and its vault trace is the single `Add` — no retrieve re-reads the
stored value. -/
theorem setItem_echoes_value
    (key value : String) (options : JSValueObject) (v : Vault)
    (h : key ≠ "") :
    setItem key value options v noFault
      = ([PromiseCompletion.resolve value],
         vaultAdd v ⟨getSharedPreferences options, key, value⟩,
         [VaultCall.add ⟨getSharedPreferences options, key, value⟩]) := by
  simp [setItem, h, noFault]

/-- Witness for C8 at key "k", value "v", empty options, empty vault. -/
theorem setItem_echoes_value_witness :
    setItem "k" "v" [] [] noFault
      = ([PromiseCompletion.resolve "v"],
         vaultAdd [] ⟨getSharedPreferences [], "k", "v"⟩,
         [VaultCall.add ⟨getSharedPreferences [], "k", "v"⟩]) :=
  setItem_echoes_value "k" "v" [] [] (by decide)

/-- C2: after a successful setItem, getItem on the same key and options
resolves with exactly the value just stored; after two setItems with
different values, getItem resolves the second (last-write-wins upsert). -/
theorem setItem_getItem_roundtrip
    (key a b : String) (options : JSValueObject) (v : Vault)
    (h : key ≠ "") :
    (getItem key options ((setItem key a options v noFault).2.1) noFault).1
        = [PromiseCompletion.resolve a] ∧
    (getItem key options
        ((setItem key b options
          ((setItem key a options v noFault).2.1) noFault).2.1) noFault).1
        = [PromiseCompletion.resolve b] := by
  have base : ∀ (w : Vault) (val : String),
      (getItem key options ((setItem key val options w noFault).2.1) noFault).1
        = [PromiseCompletion.resolve val] := by
    intro w val
    simp [getItem, setItem, h, noFault,
      vaultRetrieve_vaultAdd_self w ⟨getSharedPreferences options, key, val⟩]
  exact ⟨base v a, base _ b⟩

/-- Witness for C2 at key "k", values "a" then "b", empty options and empty
vault. -/
theorem setItem_getItem_roundtrip_witness :
    ("k" : String) ≠ "" ∧
    ((getItem "k" [] ((setItem "k" "a" [] [] noFault).2.1) noFault).1
        = [PromiseCompletion.resolve "a"] ∧
     (getItem "k" []
        ((setItem "k" "b" []
          ((setItem "k" "a" [] [] noFault).2.1) noFault).2.1) noFault).1
        = [PromiseCompletion.resolve "b"]) :=
  ⟨by decide, setItem_getItem_roundtrip "k" "a" "b" [] [] (by decide)⟩

/-- C3: getItem on a non-empty key with no record in the resolved
collection rejects with exactly "key not found". -/
theorem getItem_absent_rejects_not_found
    (key : String) (options : JSValueObject) (v : Vault)
    (hk : key ≠ "")
    (habs : vaultRetrieve v (getSharedPreferences options) key = none) :
    getItem key options v noFault
      = ([PromiseCompletion.reject "key not found"], v,
         [VaultCall.retrieve (getSharedPreferences options) key]) := by
  simp [getItem, hk, noFault, habs]

/-- Witness for C3 at key "k", empty options, empty vault. -/
theorem getItem_absent_rejects_not_found_witness :
    ("k" : String) ≠ "" ∧
    vaultRetrieve [] (getSharedPreferences []) "k" = none ∧
    getItem "k" [] [] noFault
      = ([PromiseCompletion.reject "key not found"], [],
         [VaultCall.retrieve (getSharedPreferences []) "k"]) :=
  ⟨by decide, rfl,
    getItem_absent_rejects_not_found "k" [] [] (by decide) rfl⟩

/-- C4: deleteItem on a non-empty key rejects with exactly "key not found"
when the resolved collection has no record for it; on a present record it
removes the record, resolves with the deleted key itself, and a subsequent
getItem on that key rejects with "key not found". -/
theorem deleteItem_absent_rejects_present_removes
    (key : String) (options : JSValueObject) (v : Vault) (data : Credential)
    (hk : key ≠ "") :
    (vaultRetrieve v (getSharedPreferences options) key = none →
      deleteItem key options v noFault
        = ([PromiseCompletion.reject "key not found"], v,
           [VaultCall.retrieve (getSharedPreferences options) key])) ∧
    (vaultRetrieve v (getSharedPreferences options) key = some data →
      deleteItem key options v noFault
        = ([PromiseCompletion.resolve key], vaultRemove v data,
           [VaultCall.retrieve (getSharedPreferences options) key,
            VaultCall.remove data]) ∧
      (getItem key options (vaultRemove v data) noFault).1
        = [PromiseCompletion.reject "key not found"]) := by
  constructor
  · intro habs
    simp [deleteItem, hk, noFault, habs]
  · intro hsome
    have hsome' : List.find?
        (fun c => c.resource == getSharedPreferences options && c.userName == key) v
        = some data := hsome
    have hp := List.find?_some hsome'
    simp only [Bool.and_eq_true, beq_iff_eq] at hp
    obtain ⟨h1, h2⟩ := hp
    have hgone := vaultRetrieve_vaultRemove_self v data
    rw [h1, h2] at hgone
    constructor
    · simp [deleteItem, hk, noFault, hsome]
    · simp [getItem, hk, noFault, hgone]

/-- Witness for C4: an empty vault for the absent branch, and the vault
holding exactly ("shared_preferences", "k", "s") for the present branch. -/
theorem deleteItem_absent_rejects_present_removes_witness :
    ("k" : String) ≠ "" ∧
    vaultRetrieve [] (getSharedPreferences []) "k" = none ∧
    deleteItem "k" [] [] noFault
      = ([PromiseCompletion.reject "key not found"], [],
         [VaultCall.retrieve (getSharedPreferences []) "k"]) ∧
    vaultRetrieve [⟨"shared_preferences", "k", "s"⟩] (getSharedPreferences []) "k"
      = some ⟨"shared_preferences", "k", "s"⟩ ∧
    (deleteItem "k" [] [⟨"shared_preferences", "k", "s"⟩] noFault
      = ([PromiseCompletion.resolve "k"],
         vaultRemove [⟨"shared_preferences", "k", "s"⟩]
           ⟨"shared_preferences", "k", "s"⟩,
         [VaultCall.retrieve (getSharedPreferences []) "k",
          VaultCall.remove ⟨"shared_preferences", "k", "s"⟩]) ∧
     (getItem "k" []
        (vaultRemove [⟨"shared_preferences", "k", "s"⟩]
          ⟨"shared_preferences", "k", "s"⟩) noFault).1
        = [PromiseCompletion.reject "key not found"]) :=
  ⟨by decide, rfl,
   (deleteItem_absent_rejects_present_removes "k" [] []
      ⟨"shared_preferences", "k", "s"⟩ (by decide)).1 rfl,
   by decide,
   (deleteItem_absent_rejects_present_removes "k" []
      [⟨"shared_preferences", "k", "s"⟩]
      ⟨"shared_preferences", "k", "s"⟩ (by decide)).2 (by decide)⟩

/-- In a wellformed vault, retrieving the (resource, userName) of a stored
record finds exactly that record. -/
theorem vaultRetrieve_of_mem (v : Vault) (c : Credential) :
    vaultWellformed v → c ∈ v → vaultRetrieve v c.resource c.userName = some c := by
  induction v with
  | nil => intro _ hc; cases hc
  | cons d rest ih =>
    intro hwf hc
    rcases List.mem_cons.mp hc with rfl | hmem
    · simp [vaultRetrieve, List.find?_cons]
    · have hdc : ¬(d.resource = c.resource ∧ d.userName = c.userName) :=
        (List.pairwise_cons.mp hwf).1 c hmem
      have hpd : ¬((d.resource == c.resource && d.userName == c.userName) = true) := by
        simpa [Bool.and_eq_true, beq_iff_eq] using hdc
      have htail := ih (List.pairwise_cons.mp hwf).2 hmem
      unfold vaultRetrieve at htail ⊢
      rw [List.find?_cons_of_neg rest hpd]
      exact htail

/-- Under the no-fault oracle the enumeration/read loop of getAllItems
succeeds on any list of records of a wellformed vault, folding the result
map with one upsert per record. -/
theorem buildAllItems_fst_noFault (v : Vault) (name : String)
    (hwf : vaultWellformed v) :
    ∀ (creds : List Credential) (acc : List (String × String)) (i : Nat),
      (∀ c ∈ creds, c ∈ v ∧ c.resource = name) →
      (buildAllItems v name noFault creds acc i).1
        = some (List.foldl (fun m c => jsvoSet m c.userName c.password) acc creds) := by
  intro creds
  induction creds with
  | nil => intro acc i _; rfl
  | cons c rest ih =>
    intro acc i hin
    have hc := hin c (List.mem_cons_self c rest)
    have hret : vaultRetrieve v name c.userName = some c := by
      have h := vaultRetrieve_of_mem v c hwf hc.1
      rwa [hc.2] at h
    simp only [buildAllItems, noFault, Bool.false_eq_true, if_false, hret,
      List.foldl_cons]
    exact ih (jsvoSet acc c.userName c.password) (i + 1)
      (fun d hd => hin d (List.mem_cons_of_mem _ hd))

/-- Folding fresh, pairwise-distinct keys into the result map appends them
in order. -/
theorem foldl_jsvoSet_append (creds : List Credential) :
    ∀ acc : List (String × String),
      (∀ c ∈ creds, ∀ p ∈ acc, p.1 ≠ c.userName) →
      List.Pairwise (fun c d : Credential => c.userName ≠ d.userName) creds →
      List.foldl (fun m c => jsvoSet m c.userName c.password) acc creds
        = acc ++ creds.map (fun c => (c.userName, c.password)) := by
  induction creds with
  | nil => intro acc _ _; simp
  | cons c rest ih =>
    intro acc hfresh hpw
    have hnotin : List.any acc (fun p => p.1 == c.userName) = false := by
      rw [List.any_eq_false]
      intro p hp
      simpa [beq_iff_eq] using hfresh c (List.mem_cons_self c rest) p hp
    have hstep : jsvoSet acc c.userName c.password
        = acc ++ [(c.userName, c.password)] := by
      simp [jsvoSet, hnotin]
    rw [List.foldl_cons, hstep,
      ih (acc ++ [(c.userName, c.password)]) ?_ (List.pairwise_cons.mp hpw).2]
    · simp
    · intro d hd p hp
      rcases List.mem_append.mp hp with hpa | hpc
      · exact hfresh d (List.mem_cons_of_mem c hd) p hpa
      · have hpe : p = (c.userName, c.password) := by simpa using hpc
        rw [hpe]
        exact (List.pairwise_cons.mp hpw).1 d hd

/-- The assembled (userName, password) pairs of one collection are exactly
its stored records. -/
theorem mem_allItems_map_iff (v : Vault) (name k val : String) :
    (k, val) ∈ (vaultFindAllByResource v name).map
        (fun c => (c.userName, c.password))
      ↔ Credential.mk name k val ∈ v := by
  rw [List.mem_map]
  constructor
  · rintro ⟨c, hc, heq⟩
    have hcv := List.mem_filter.mp hc
    have hres : c.resource = name := by simpa [beq_iff_eq] using hcv.2
    have h1 : c.userName = k := congrArg Prod.fst heq
    have h2 : c.password = val := congrArg Prod.snd heq
    have hce : c = Credential.mk name k val := by
      cases c
      simp_all
    rw [← hce]
    exact hcv.1
  · intro hv
    exact ⟨Credential.mk name k val, List.mem_filter.mpr ⟨hv, by simp⟩, rfl⟩

/-- C5: on a wellformed vault, getAllItems resolves with a mapping holding
exactly the (key, value) pairs of the records stored in the resolved
collection; on an empty or never-used collection it resolves with the empty
mapping. -/
theorem getAllItems_resolves_exact_contents
    (options : JSValueObject) (v : Vault) (hwf : vaultWellformed v) :
    ∃ m, (getAllItems options v noFault).1 = [PromiseCompletion.resolve m] ∧
      (∀ k val, (k, val) ∈ m ↔
        Credential.mk (getSharedPreferences options) k val ∈ v) ∧
      (vaultFindAllByResource v (getSharedPreferences options) = [] → m = []) := by
  refine ⟨(vaultFindAllByResource v (getSharedPreferences options)).map
      (fun c => (c.userName, c.password)), ?_, ?_, ?_⟩
  · have hin : ∀ c ∈ vaultFindAllByResource v (getSharedPreferences options),
        c ∈ v ∧ c.resource = getSharedPreferences options := by
      intro c hc
      have hcv := List.mem_filter.mp hc
      exact ⟨hcv.1, by simpa [beq_iff_eq] using hcv.2⟩
    have hpw : List.Pairwise (fun c d : Credential => c.userName ≠ d.userName)
        (vaultFindAllByResource v (getSharedPreferences options)) := by
      have hsub : List.Pairwise
          (fun c d => ¬(c.resource = d.resource ∧ c.userName = d.userName))
          (vaultFindAllByResource v (getSharedPreferences options)) :=
        List.Pairwise.sublist (List.filter_sublist v) hwf
      refine hsub.imp_of_mem ?_
      intro c d hc hd hnot heq
      exact hnot ⟨by rw [(hin c hc).2, (hin d hd).2], heq⟩
    have hbuild := buildAllItems_fst_noFault v (getSharedPreferences options) hwf
      (vaultFindAllByResource v (getSharedPreferences options)) [] 1 hin
    have hfold := foldl_jsvoSet_append
      (vaultFindAllByResource v (getSharedPreferences options)) []
      (by intro c _ p hp; cases hp) hpw
    rw [hfold] at hbuild
    rcases hb : buildAllItems v (getSharedPreferences options) noFault
        (vaultFindAllByResource v (getSharedPreferences options)) [] 1 with ⟨o, tr⟩
    rw [hb] at hbuild
    simp only at hbuild
    rw [hbuild] at hb
    simp [getAllItems, noFault, hb]
  · intro k val
    exact mem_allItems_map_iff v (getSharedPreferences options) k val
  · intro h
    rw [h]
    rfl

/-- Witness for C5 on a two-record collection. -/
theorem getAllItems_resolves_exact_contents_witness :
    vaultWellformed [⟨"shared_preferences", "a", "1"⟩,
                     ⟨"shared_preferences", "b", "2"⟩] ∧
    ∃ m, (getAllItems []
            [⟨"shared_preferences", "a", "1"⟩,
             ⟨"shared_preferences", "b", "2"⟩] noFault).1
          = [PromiseCompletion.resolve m] ∧
      (∀ k val, (k, val) ∈ m ↔
        Credential.mk (getSharedPreferences []) k val
          ∈ [⟨"shared_preferences", "a", "1"⟩,
             ⟨"shared_preferences", "b", "2"⟩]) ∧
      (vaultFindAllByResource
          [⟨"shared_preferences", "a", "1"⟩,
           ⟨"shared_preferences", "b", "2"⟩] (getSharedPreferences []) = []
        → m = []) :=
  ⟨by simp [vaultWellformed],
   getAllItems_resolves_exact_contents []
     [⟨"shared_preferences", "a", "1"⟩, ⟨"shared_preferences", "b", "2"⟩]
     (by simp [vaultWellformed])⟩

/-- If the enumeration/read loop succeeds under some fault oracle, it
succeeds with the same mapping under the no-fault oracle. -/
theorem buildAllItems_fst_some_of_fault (v : Vault) (name : String)
    (fault : Nat → Bool) :
    ∀ (creds : List Credential) (acc : List (String × String)) (i : Nat)
      (m : List (String × String)),
      (buildAllItems v name fault creds acc i).1 = some m →
      (buildAllItems v name noFault creds acc i).1 = some m := by
  intro creds
  induction creds with
  | nil => intro acc i m h; exact h
  | cons c rest ih =>
    intro acc i m h
    by_cases hf : fault i = true
    · simp [buildAllItems, hf] at h
    · rw [Bool.not_eq_true] at hf
      cases hr : vaultRetrieve v name c.userName with
      | none => simp [buildAllItems, hf, hr] at h
      | some data =>
        simp only [buildAllItems, hf, Bool.false_eq_true, if_false, hr] at h
        simp only [buildAllItems, noFault, Bool.false_eq_true, if_false, hr]
        exact ih _ _ _ h

/-- Retrieving the (resource, userName) of a record stored in the vault
always finds some record, so an enumerated credential of the collection is
always retrievable. -/
theorem vaultRetrieve_isSome_of_mem (v : Vault) (name : String)
    (c : Credential) (hc : c ∈ v) (hres : c.resource = name) :
    (vaultRetrieve v name c.userName).isSome := by
  unfold vaultRetrieve
  rw [List.find?_isSome]
  exact ⟨c, hc, by simp [hres]⟩

/-- A fault at the first reached call of the enumeration/read loop makes
the loop raise: position j of the records, with calls numbered from i and
no earlier call faulting. -/
theorem buildAllItems_fst_none_of_fault (v : Vault) (name : String)
    (fault : Nat → Bool) :
    ∀ (creds : List Credential) (acc : List (String × String)) (i j : Nat),
      (∀ c ∈ creds, c ∈ v ∧ c.resource = name) →
      j < creds.length →
      (∀ l, l < j → fault (i + l) = false) →
      fault (i + j) = true →
      (buildAllItems v name fault creds acc i).1 = none := by
  intro creds
  induction creds with
  | nil =>
    intro acc i j _ hj _ _
    exact absurd hj (by simp)
  | cons c rest ih =>
    intro acc i j hin hj hprev hfj
    cases j with
    | zero =>
      rw [Nat.add_zero] at hfj
      simp [buildAllItems, hfj]
    | succ j0 =>
      have hf0 : fault i = false := by
        simpa using hprev 0 (Nat.succ_pos j0)
      have hc := hin c (List.mem_cons_self c rest)
      have hsome := vaultRetrieve_isSome_of_mem v name c hc.1 hc.2
      rcases ho : vaultRetrieve v name c.userName with _ | data
      · rw [ho] at hsome
        simp at hsome
      · simp only [buildAllItems, hf0, Bool.false_eq_true, if_false, ho]
        refine ih (jsvoSet acc c.userName data.password) (i + 1) j0
          (fun d hd => hin d (List.mem_cons_of_mem _ hd)) ?_ ?_ ?_
        · have hlen : j0 + 1 < rest.length + 1 := by simpa using hj
          exact Nat.lt_of_succ_lt_succ hlen
        · intro l hl
          have h := hprev (l + 1) (Nat.succ_lt_succ hl)
          have e : i + (l + 1) = i + 1 + l := by omega
          rwa [e] at h
        · have e : i + (j0 + 1) = i + 1 + j0 := by omega
          rwa [e] at hfj

/-- C6: under any fault oracle each operation either behaves exactly as in
the fault-free run or rejects with the single generic reason
"cannot access datastore"; a fault on the first vault call makes all four
operations reject generically; a fault on deleteItem's Remove after a
successful lookup rejects generically; a fault at any reached position of
getAllItems' enumeration/read loop rejects generically; and any mapping
resolved by getAllItems is the complete fault-free mapping — no partial
result is ever delivered. -/
theorem vault_exceptions_reject_generically
    (key value : String) (options : JSValueObject) (v : Vault)
    (fault : Nat → Bool) (hk : key ≠ "") :
    ((getItem key options v fault).1 = (getItem key options v noFault).1 ∨
     (getItem key options v fault).1
        = [PromiseCompletion.reject "cannot access datastore"]) ∧
    ((setItem key value options v fault).1
        = (setItem key value options v noFault).1 ∨
     (setItem key value options v fault).1
        = [PromiseCompletion.reject "cannot access datastore"]) ∧
    ((deleteItem key options v fault).1
        = (deleteItem key options v noFault).1 ∨
     (deleteItem key options v fault).1
        = [PromiseCompletion.reject "cannot access datastore"]) ∧
    ((getAllItems options v fault).1 = (getAllItems options v noFault).1 ∨
     (getAllItems options v fault).1
        = [PromiseCompletion.reject "cannot access datastore"]) ∧
    (fault 0 = true →
      (getItem key options v fault).1
          = [PromiseCompletion.reject "cannot access datastore"] ∧
      (setItem key value options v fault).1
          = [PromiseCompletion.reject "cannot access datastore"] ∧
      (deleteItem key options v fault).1
          = [PromiseCompletion.reject "cannot access datastore"] ∧
      (getAllItems options v fault).1
          = [PromiseCompletion.reject "cannot access datastore"]) ∧
    (fault 0 = false →
      ∀ data, vaultRetrieve v (getSharedPreferences options) key = some data →
      fault 1 = true →
      (deleteItem key options v fault).1
        = [PromiseCompletion.reject "cannot access datastore"]) ∧
    (∀ j, fault 0 = false →
      j < (vaultFindAllByResource v (getSharedPreferences options)).length →
      (∀ l, l < j → fault (1 + l) = false) →
      fault (1 + j) = true →
      (getAllItems options v fault).1
        = [PromiseCompletion.reject "cannot access datastore"]) ∧
    (∀ m, PromiseCompletion.resolve m ∈ (getAllItems options v fault).1 →
      (getAllItems options v noFault).1 = [PromiseCompletion.resolve m]) := by
  have hGA : (getAllItems options v fault).1 = (getAllItems options v noFault).1 ∨
      (getAllItems options v fault).1
        = [PromiseCompletion.reject "cannot access datastore"] := by
    by_cases hf : fault 0 = true
    · right
      simp [getAllItems, hf]
    · rw [Bool.not_eq_true] at hf
      rcases hb : buildAllItems v (getSharedPreferences options) fault
          (vaultFindAllByResource v (getSharedPreferences options)) [] 1 with ⟨o, tr⟩
      cases o with
      | none =>
        right
        simp [getAllItems, hf, hb]
      | some m =>
        left
        have hn := buildAllItems_fst_some_of_fault v (getSharedPreferences options)
          fault (vaultFindAllByResource v (getSharedPreferences options)) [] 1 m
          (by rw [hb])
        rcases hb0 : buildAllItems v (getSharedPreferences options) noFault
            (vaultFindAllByResource v (getSharedPreferences options)) [] 1
          with ⟨o0, tr0⟩
        rw [hb0] at hn
        simp only at hn
        rw [hn] at hb0
        simp [getAllItems, hf, noFault, hb, hb0]
  refine ⟨?_, ?_, ?_, hGA, ?_, ?_, ?_, ?_⟩
  · by_cases hf : fault 0 = true
    · right
      simp [getItem, hk, hf]
    · left
      rw [Bool.not_eq_true] at hf
      simp [getItem, hk, hf, noFault]
  · by_cases hf : fault 0 = true
    · right
      simp [setItem, hk, hf]
    · left
      rw [Bool.not_eq_true] at hf
      simp [setItem, hk, hf, noFault]
  · by_cases hf : fault 0 = true
    · right
      simp [deleteItem, hk, hf]
    · rw [Bool.not_eq_true] at hf
      cases hr : vaultRetrieve v (getSharedPreferences options) key with
      | none =>
        left
        simp [deleteItem, hk, hf, noFault, hr]
      | some data =>
        by_cases hf1 : fault 1 = true
        · right
          simp [deleteItem, hk, hf, hf1, hr]
        · left
          rw [Bool.not_eq_true] at hf1
          simp [deleteItem, hk, hf, hf1, noFault, hr]
  · intro h0
    refine ⟨?_, ?_, ?_, ?_⟩ <;>
      simp [getItem, setItem, deleteItem, getAllItems, hk, h0]
  · intro hf0 data hr hf1
    simp [deleteItem, hk, hf0, hr, hf1]
  · intro j hf0 hj hprev hfj
    have hin : ∀ c ∈ vaultFindAllByResource v (getSharedPreferences options),
        c ∈ v ∧ c.resource = getSharedPreferences options := by
      intro c hc
      have hcv := List.mem_filter.mp hc
      exact ⟨hcv.1, by simpa [beq_iff_eq] using hcv.2⟩
    have hnone := buildAllItems_fst_none_of_fault v (getSharedPreferences options)
      fault (vaultFindAllByResource v (getSharedPreferences options)) [] 1 j
      hin hj hprev hfj
    rcases hb : buildAllItems v (getSharedPreferences options) fault
        (vaultFindAllByResource v (getSharedPreferences options)) [] 1 with ⟨o, tr⟩
    rw [hb] at hnone
    simp only at hnone
    rw [hnone] at hb
    simp [getAllItems, hf0, hb]
  · intro m hm
    rcases hGA with hEq | hC
    · rw [hEq] at hm
      rcases hb0 : buildAllItems v (getSharedPreferences options) noFault
          (vaultFindAllByResource v (getSharedPreferences options)) [] 1
        with ⟨o0, tr0⟩
      cases o0 with
      | none =>
        simp [getAllItems, noFault, hb0] at hm
      | some M =>
        simp only [getAllItems, noFault, Bool.false_eq_true, if_false, hb0] at hm ⊢
        simp only [List.mem_singleton] at hm
        rw [← hm]
    · rw [hC] at hm
      simp at hm

/-- Witness for C6 at key "k", value "v", empty options, the one-record
vault ("shared_preferences", "k", "s"), under the oracle that makes exactly
vault call 1 throw — the call that is deleteItem's Remove and the first
Retrieve of getAllItems' enumeration loop. -/
theorem vault_exceptions_reject_generically_witness :
    ("k" : String) ≠ "" ∧
    (((getItem "k" [] [⟨"shared_preferences", "k", "s"⟩]
          (fun i : Nat => decide (i = 1))).1
          = (getItem "k" [] [⟨"shared_preferences", "k", "s"⟩] noFault).1 ∨
      (getItem "k" [] [⟨"shared_preferences", "k", "s"⟩]
          (fun i : Nat => decide (i = 1))).1
          = [PromiseCompletion.reject "cannot access datastore"]) ∧
     ((setItem "k" "v" [] [⟨"shared_preferences", "k", "s"⟩]
          (fun i : Nat => decide (i = 1))).1
          = (setItem "k" "v" [] [⟨"shared_preferences", "k", "s"⟩] noFault).1 ∨
      (setItem "k" "v" [] [⟨"shared_preferences", "k", "s"⟩]
          (fun i : Nat => decide (i = 1))).1
          = [PromiseCompletion.reject "cannot access datastore"]) ∧
     ((deleteItem "k" [] [⟨"shared_preferences", "k", "s"⟩]
          (fun i : Nat => decide (i = 1))).1
          = (deleteItem "k" [] [⟨"shared_preferences", "k", "s"⟩] noFault).1 ∨
      (deleteItem "k" [] [⟨"shared_preferences", "k", "s"⟩]
          (fun i : Nat => decide (i = 1))).1
          = [PromiseCompletion.reject "cannot access datastore"]) ∧
     ((getAllItems [] [⟨"shared_preferences", "k", "s"⟩]
          (fun i : Nat => decide (i = 1))).1
          = (getAllItems [] [⟨"shared_preferences", "k", "s"⟩] noFault).1 ∨
      (getAllItems [] [⟨"shared_preferences", "k", "s"⟩]
          (fun i : Nat => decide (i = 1))).1
          = [PromiseCompletion.reject "cannot access datastore"]) ∧
     ((fun i : Nat => decide (i = 1)) 0 = true →
       (getItem "k" [] [⟨"shared_preferences", "k", "s"⟩]
           (fun i : Nat => decide (i = 1))).1
           = [PromiseCompletion.reject "cannot access datastore"] ∧
       (setItem "k" "v" [] [⟨"shared_preferences", "k", "s"⟩]
           (fun i : Nat => decide (i = 1))).1
           = [PromiseCompletion.reject "cannot access datastore"] ∧
       (deleteItem "k" [] [⟨"shared_preferences", "k", "s"⟩]
           (fun i : Nat => decide (i = 1))).1
           = [PromiseCompletion.reject "cannot access datastore"] ∧
       (getAllItems [] [⟨"shared_preferences", "k", "s"⟩]
           (fun i : Nat => decide (i = 1))).1
           = [PromiseCompletion.reject "cannot access datastore"]) ∧
     ((fun i : Nat => decide (i = 1)) 0 = false →
       ∀ data, vaultRetrieve [⟨"shared_preferences", "k", "s"⟩]
           (getSharedPreferences []) "k" = some data →
       (fun i : Nat => decide (i = 1)) 1 = true →
       (deleteItem "k" [] [⟨"shared_preferences", "k", "s"⟩]
           (fun i : Nat => decide (i = 1))).1
         = [PromiseCompletion.reject "cannot access datastore"]) ∧
     (∀ j, (fun i : Nat => decide (i = 1)) 0 = false →
       j < (vaultFindAllByResource [⟨"shared_preferences", "k", "s"⟩]
             (getSharedPreferences [])).length →
       (∀ l, l < j → (fun i : Nat => decide (i = 1)) (1 + l) = false) →
       (fun i : Nat => decide (i = 1)) (1 + j) = true →
       (getAllItems [] [⟨"shared_preferences", "k", "s"⟩]
           (fun i : Nat => decide (i = 1))).1
         = [PromiseCompletion.reject "cannot access datastore"]) ∧
     (∀ m, PromiseCompletion.resolve m
            ∈ (getAllItems [] [⟨"shared_preferences", "k", "s"⟩]
                (fun i : Nat => decide (i = 1))).1 →
       (getAllItems [] [⟨"shared_preferences", "k", "s"⟩] noFault).1
         = [PromiseCompletion.resolve m])) :=
  ⟨by decide,
   vault_exceptions_reject_generically "k" "v" []
     [⟨"shared_preferences", "k", "s"⟩] (fun i : Nat => decide (i = 1))
     (by decide)⟩

/-- C7 counterexample: a sharedPreferencesName field that is present but not
a string does not fall back to the default collection.  A null field
resolves the collection name "" (its AsString conversion), so getItem misses
a record stored under "shared_preferences", unlike an explicit
"shared_preferences". -/
theorem mistyped_options_use_converted_name :
    getSharedPreferences [("sharedPreferencesName", JSValue.null)] = "" ∧
    ("" : String) ≠ "shared_preferences" ∧
    (getItem "k" [("sharedPreferencesName", JSValue.null)]
        [⟨"shared_preferences", "k", "s"⟩] noFault).1
      = [PromiseCompletion.reject "key not found"] ∧
    (getItem "k" [("sharedPreferencesName",
        JSValue.string "shared_preferences")]
        [⟨"shared_preferences", "k", "s"⟩] noFault).1
      = [PromiseCompletion.resolve "s"] :=
  ⟨rfl, by decide, by decide, by decide⟩

/-- Modelled from the spec (amended wording): collection-name resolution is
total — the field's string conversion when sharedPreferencesName is
present, else the default literal "shared_preferences". -/
def resolveCollectionName (options : JSValueObject) : String :=
  match jsvoFind options "sharedPreferencesName" with
  | some jv => jv.asString
  | none => "shared_preferences"

/-- C7 as amended: collection-name resolution never fails — the absent
field resolves the default literal, a present field resolves its string
conversion, every operation behaves exactly as if that resolved name had
been passed explicitly as a string, and no options structure ever causes a
rejection of its own. -/
theorem collection_resolution_never_fails
    (key value : String) (options : JSValueObject) (v : Vault)
    (fault : Nat → Bool) :
    getSharedPreferences options = resolveCollectionName options ∧
    getSharedPreferences [] = "shared_preferences" ∧
    getItem key options v fault
      = getItem key
          [("sharedPreferencesName",
            JSValue.string (getSharedPreferences options))] v fault ∧
    setItem key value options v fault
      = setItem key value
          [("sharedPreferencesName",
            JSValue.string (getSharedPreferences options))] v fault ∧
    deleteItem key options v fault
      = deleteItem key
          [("sharedPreferencesName",
            JSValue.string (getSharedPreferences options))] v fault ∧
    getAllItems options v fault
      = getAllItems
          [("sharedPreferencesName",
            JSValue.string (getSharedPreferences options))] v fault := by
  have hname : getSharedPreferences
      [("sharedPreferencesName", JSValue.string (getSharedPreferences options))]
      = getSharedPreferences options := rfl
  refine ⟨rfl, rfl, ?_, ?_, ?_, ?_⟩ <;>
    simp only [getItem, setItem, deleteItem, getAllItems, hname]

/-- C10: every invocation of every public operation completes its promise
exactly once — on every control path, for every input, vault state and
fault oracle, exactly one Resolve or Reject is performed. -/
theorem operations_complete_promise_exactly_once
    (key value : String) (options : JSValueObject) (v : Vault)
    (fault : Nat → Bool) :
    (getItem key options v fault).1.length = 1 ∧
    (setItem key value options v fault).1.length = 1 ∧
    (deleteItem key options v fault).1.length = 1 ∧
    (getAllItems options v fault).1.length = 1 ∧
    isSensorAvailable.length = 1 ∧
    hasEnrolledFingerprints.length = 1 := by
  refine ⟨?_, ?_, ?_, ?_, rfl, rfl⟩
  · simp only [getItem]
    split
    · rfl
    · split
      · rfl
      · split <;> rfl
  · simp only [setItem]
    split
    · rfl
    · split <;> rfl
  · simp only [deleteItem]
    split
    · rfl
    · split
      · rfl
      · split
        · rfl
        · split <;> rfl
  · simp only [getAllItems]
    split
    · rfl
    · split <;> rfl
